import Mathlib

/-!
# Tarnation server core: shallow embedding and verification

A shallow embedding of the authoritative game-server core of the
`CollinEMac/tarnation` repository, translated from the Go source:

* `internal/game` collision helpers (`CheckWallCollision`,
  `CheckWallCollisionWithSliding`),
* `internal/networking/server.go` combat, threat/targeting, enemy AI and
  rage-decay handlers (`handleCombat`, `handleCriticalStrike`,
  `updateEnemyTarget`, `processEnemyAI`, `moveEnemyTowardTarget`,
  `attemptEnemyAttack`, `handleRageDecay`).

Go `float64` coordinates and threat values are modelled as `ℚ`; Go `int`
as `ℤ`; `time.Time`/`time.Duration` as nanosecond counts in `ℤ`.  Go maps
(`map[string]*Player`, `map[string]*Enemy`, `map[string]float64`) are
modelled as association lists; in-place mutation through a pointer becomes
replacement of the entry at the same key.  Broadcasts pushed on the server
channel become an explicitly returned list of messages, in push order.
-/

/-- A wall rectangle, from `internal/types.Wall` (fields X, Y, Width, Height). -/
structure Wall where
  x : ℚ
  y : ℚ
  width : ℚ
  height : ℚ
deriving DecidableEq, Repr

/-- Half the size of a player/enemy (20x20 rectangle), from `CheckWallCollision`. -/
def entitySize : ℚ := 10

/-- `game.CheckWallCollision`: does an entity centred at `(x, y)` overlap any wall?
Translated clause for clause from the Go loop: strict inequalities on all four
sides against each wall rectangle. -/
def CheckWallCollision (x y : ℚ) (walls : List Wall) : Bool :=
  walls.any fun wall =>
    decide (x - entitySize < wall.x + wall.width) &&
    decide (x + entitySize > wall.x) &&
    decide (y - entitySize < wall.y + wall.height) &&
    decide (y + entitySize > wall.y)

/-- `game.CheckWallCollisionWithSliding`: accept the desired position when free,
else try the horizontal slide, else the vertical slide, else stay put. -/
def CheckWallCollisionWithSliding (oldX oldY newX newY : ℚ) (walls : List Wall) :
    ℚ × ℚ :=
  if CheckWallCollision newX newY walls = false then (newX, newY)
  else if CheckWallCollision newX oldY walls = false then (newX, oldY)
  else if CheckWallCollision oldX newY walls = false then (oldX, newY)
  else (oldX, oldY)

/-- **C1 (counterexample).** The claim asserts the position returned by the
collision resolver never overlaps a wall, *in particular even when the old
position itself overlaps a wall*.  Concrete refutation: with the single wall
`(0, 0, 100, 100)`, old position `(50, 50)` (inside the wall) and desired
position `(55, 50)`, every candidate collides, so the resolver returns the old
position `(50, 50)`, which overlaps the wall. -/
theorem C1_counterexample :
    CheckWallCollision 50 50 [⟨0, 0, 100, 100⟩] = true ∧
    CheckWallCollisionWithSliding 50 50 55 50 [⟨0, 0, 100, 100⟩] = (50, 50) ∧
    CheckWallCollision
      (CheckWallCollisionWithSliding 50 50 55 50 [⟨0, 0, 100, 100⟩]).1
      (CheckWallCollisionWithSliding 50 50 55 50 [⟨0, 0, 100, 100⟩]).2
      [⟨0, 0, 100, 100⟩] = true := by
  have h1 : CheckWallCollision 55 50 [⟨0, 0, 100, 100⟩] = true := by
    norm_num [CheckWallCollision, entitySize]
  have h2 : CheckWallCollision 50 50 [⟨0, 0, 100, 100⟩] = true := by
    norm_num [CheckWallCollision, entitySize]
  have hs : CheckWallCollisionWithSliding 50 50 55 50 [⟨0, 0, 100, 100⟩] = (50, 50) := by
    simp [CheckWallCollisionWithSliding, h1, h2]
  exact ⟨h2, hs, by rw [hs]; exact h2⟩

/-- **C1 (amended).** Provided the *old* position does not overlap any wall,
the position returned by `CheckWallCollisionWithSliding` does not overlap any
wall: each of the three accepted candidates is returned only after a
collision-free check, and the fallback is the old position itself. -/
theorem C1_amended (oldX oldY newX newY : ℚ) (walls : List Wall)
    (hold : CheckWallCollision oldX oldY walls = false) :
    CheckWallCollision
      (CheckWallCollisionWithSliding oldX oldY newX newY walls).1
      (CheckWallCollisionWithSliding oldX oldY newX newY walls).2
      walls = false := by
  unfold CheckWallCollisionWithSliding
  by_cases h1 : CheckWallCollision newX newY walls = false
  · simp [h1]
  · by_cases h2 : CheckWallCollision newX oldY walls = false
    · simp [h1, h2]
    · by_cases h3 : CheckWallCollision oldX newY walls = false
      · simp [h1, h2, h3]
      · simp [h1, h2, h3, hold]

/-- Witness for `C1_amended` at a concrete input: old position `(200, 200)` is
outside the wall `(0, 0, 100, 100)`, so the resolved position for a move toward
`(50, 50)` is collision-free. -/
theorem C1_amended_witness :
    CheckWallCollision
      (CheckWallCollisionWithSliding 200 200 50 50 [⟨0, 0, 100, 100⟩]).1
      (CheckWallCollisionWithSliding 200 200 50 50 [⟨0, 0, 100, 100⟩]).2
      [⟨0, 0, 100, 100⟩] = false :=
  C1_amended 200 200 50 50 [⟨0, 0, 100, 100⟩] (by norm_num [CheckWallCollision, entitySize])

/-- **C7.** The collision resolver follows exactly the specified four-step
order: desired position when free; else the horizontal slide `(newX, oldY)`
when free; else the vertical slide `(oldX, newY)` when free; else the old
position unchanged. -/
theorem C7_sliding_order (oldX oldY newX newY : ℚ) (walls : List Wall) :
    (CheckWallCollision newX newY walls = false →
      CheckWallCollisionWithSliding oldX oldY newX newY walls = (newX, newY)) ∧
    (CheckWallCollision newX newY walls = true →
      CheckWallCollision newX oldY walls = false →
      CheckWallCollisionWithSliding oldX oldY newX newY walls = (newX, oldY)) ∧
    (CheckWallCollision newX newY walls = true →
      CheckWallCollision newX oldY walls = true →
      CheckWallCollision oldX newY walls = false →
      CheckWallCollisionWithSliding oldX oldY newX newY walls = (oldX, newY)) ∧
    (CheckWallCollision newX newY walls = true →
      CheckWallCollision newX oldY walls = true →
      CheckWallCollision oldX newY walls = true →
      CheckWallCollisionWithSliding oldX oldY newX newY walls = (oldX, oldY)) := by
  refine ⟨fun h1 => ?_, fun h1 h2 => ?_, fun h1 h2 h3 => ?_, fun h1 h2 h3 => ?_⟩
  · simp [CheckWallCollisionWithSliding, h1]
  · simp [CheckWallCollisionWithSliding, h1, h2]
  · simp [CheckWallCollisionWithSliding, h1, h2, h3]
  · simp [CheckWallCollisionWithSliding, h1, h2, h3]

/-- Witness for `C7_sliding_order`: with no walls the straight path is free and
the resolver returns the desired end point exactly. -/
theorem C7_sliding_order_witness :
    CheckWallCollisionWithSliding 1 2 3 4 [] = (3, 4) :=
  (C7_sliding_order 1 2 3 4 []).1 rfl

/-- A weapon, from `internal/types.Weapon`; `delay` is a `time.Duration` in
nanoseconds. -/
structure Weapon where
  damage : Int
  range : Int
  delay : Int
deriving DecidableEq, Repr

/-- A player, from `internal/types.Player`: the fields read or written by the
server core (`Mana` holds the warrior rage resource). -/
structure Player where
  id : String
  x : ℚ
  y : ℚ
  Class : String
  health : Int
  maxHealth : Int
  mana : Int
  maxMana : Int
  dead : Bool
  weapon : Option Weapon
deriving DecidableEq, Repr

/-- An enemy, from `internal/types.Enemy`; the Go `ThreatList` map
(`PlayerID -> threat`) is modelled as an association list and `LastAttack` as a
nanosecond timestamp. -/
structure Enemy where
  id : String
  x : ℚ
  y : ℚ
  health : Int
  maxHealth : Int
  targetID : String
  lastAttack : Int
  threatList : List (String × ℚ)
  weapon : Option Weapon
deriving DecidableEq, Repr

/-- A broadcast enqueued on the server channel.  `playerUpdate` carries the
envelope `PlayerID` and the marshalled player; `enemyUpdate` a full enemy
snapshot; `enemyDeath` the minimal `{id, dead: true}` marker the Go code
builds for a defeated enemy. -/
inductive Msg where
  | playerUpdate (playerID : String) (p : Player)
  | enemyUpdate (e : Enemy)
  | enemyDeath (id : String)
deriving DecidableEq, Repr

/-- Association-list lookup, modelling Go map indexing `m[k]`. -/
def lookupA {α : Type} : List (String × α) → String → Option α
  | [], _ => none
  | (k, v) :: rest, key => if k = key then some v else lookupA rest key

/-- Association-list overwrite at an existing key, modelling in-place mutation
of the entity a Go map entry points to. -/
def setA {α : Type} : List (String × α) → String → α → List (String × α)
  | [], _, _ => []
  | (k, v) :: rest, key, w =>
    if k = key then (k, w) :: rest else (k, v) :: setA rest key w

/-- Association-list removal, modelling Go `delete(m, k)`. -/
def eraseA {α : Type} : List (String × α) → String → List (String × α)
  | [], _ => []
  | (k, v) :: rest, key => if k = key then rest else (k, v) :: eraseA rest key

/-- The threat score stored for a player, `0` when absent (Go map zero value). -/
def threatOf (tl : List (String × ℚ)) (k : String) : ℚ :=
  (lookupA tl k).getD 0

/-- Go `m[k] += d` on the threat map: add to the existing entry, or create the
entry from the zero value. -/
def bumpThreat : List (String × ℚ) → String → ℚ → List (String × ℚ)
  | [], key, d => [(key, d)]
  | (k, v) :: rest, key, d =>
    if k = key then (k, v + d) :: rest else (k, v) :: bumpThreat rest key d

/-- A player id is eligible as an enemy target: present in the players map and
not dead (`exists && !player.Dead` in `updateEnemyTarget`). -/
def eligibleP (players : List (String × Player)) (pid : String) : Prop :=
  ∃ p, lookupA players pid = some p ∧ p.dead = false

/-- One iteration of the `updateEnemyTarget` scan: keep the running
`(highestThreat, newTargetID)` pair unless this entry names a connected,
non-dead player with threat strictly above the running maximum. -/
def targStep (players : List (String × Player)) (acc : ℚ × String)
    (e : String × ℚ) : ℚ × String :=
  match lookupA players e.1 with
  | some p => if p.dead = false ∧ acc.1 < e.2 then (e.2, e.1) else acc
  | none => acc

/-- The scan of `updateEnemyTarget`, starting from
`highestThreat = 0, newTargetID = ""`. -/
def selectTarget (players : List (String × Player)) (tl : List (String × ℚ)) :
    ℚ × String :=
  tl.foldl (targStep players) (0, "")

/-- `server.updateEnemyTarget`: scan the threat table and store the selected
target id (the Go code assigns only when it changed, which yields the same
final state). -/
def updateEnemyTarget (players : List (String × Player)) (enemy : Enemy) :
    Enemy :=
  { enemy with targetID := (selectTarget players enemy.threatList).2 }

theorem targStep_cases (players : List (String × Player)) (acc : ℚ × String)
    (e : String × ℚ) :
    targStep players acc e = acc ∨
      (eligibleP players e.1 ∧ acc.1 < e.2 ∧ targStep players acc e = (e.2, e.1)) := by
  unfold targStep
  cases hl : lookupA players e.1 with
  | none => exact Or.inl rfl
  | some p =>
    by_cases hc : p.dead = false ∧ acc.1 < e.2
    · exact Or.inr ⟨⟨p, hl, hc.1⟩, hc.2, if_pos hc⟩
    · exact Or.inl (if_neg hc)

theorem foldl_targStep_stable (players : List (String × Player)) :
    ∀ (tl : List (String × ℚ)) (acc : ℚ × String),
      (∀ e ∈ tl, eligibleP players e.1 → e.2 ≤ acc.1) →
      tl.foldl (targStep players) acc = acc := by
  intro tl
  induction tl with
  | nil => intro acc _; rfl
  | cons e rest ih =>
    intro acc h
    rw [List.foldl_cons]
    have hstep : targStep players acc e = acc := by
      unfold targStep
      cases hl : lookupA players e.1 with
      | none => rfl
      | some p =>
        exact if_neg fun hc =>
          absurd hc.2 (not_lt.mpr (h e (List.mem_cons_self e rest) ⟨p, hl, hc.1⟩))
    rw [hstep]
    exact ih acc fun f hf he => h f (List.mem_cons_of_mem e hf) he

theorem foldl_targStep_sound (players : List (String × Player)) :
    ∀ (tl : List (String × ℚ)) (acc : ℚ × String), 0 ≤ acc.1 →
      tl.foldl (targStep players) acc = acc ∨
        ∃ pid t, (pid, t) ∈ tl ∧ eligibleP players pid ∧
          tl.foldl (targStep players) acc = (t, pid) ∧ 0 < t := by
  intro tl
  induction tl with
  | nil => intro acc _; exact Or.inl rfl
  | cons e rest ih =>
    intro acc h0
    rw [List.foldl_cons]
    rcases targStep_cases players acc e with heq | ⟨helig, hlt, heq⟩
    · rw [heq]
      rcases ih acc h0 with h | ⟨pid, t, hm, he, hf, ht⟩
      · exact Or.inl h
      · exact Or.inr ⟨pid, t, List.mem_cons_of_mem e hm, he, hf, ht⟩
    · rw [heq]
      have hpos : 0 < e.2 := lt_of_le_of_lt h0 hlt
      rcases ih (e.2, e.1) (le_of_lt hpos) with h | ⟨pid, t, hm, he, hf, ht⟩
      · exact Or.inr ⟨e.1, e.2, List.mem_cons_self e rest, helig, by rw [h], hpos⟩
      · exact Or.inr ⟨pid, t, List.mem_cons_of_mem e hm, he, hf, ht⟩

theorem foldl_targStep_dominant (players : List (String × Player)) :
    ∀ (tl : List (String × ℚ)) (acc : ℚ × String) (pid : String) (t : ℚ),
      acc.1 < t → (pid, t) ∈ tl → eligibleP players pid →
      (∀ p u, (p, u) ∈ tl → eligibleP players p → ¬(p = pid ∧ u = t) → u < t) →
      tl.foldl (targStep players) acc = (t, pid) := by
  intro tl
  induction tl with
  | nil => intro acc pid t _ hmem _ _; exact absurd hmem (List.not_mem_nil _)
  | cons e rest ih =>
    intro acc pid t hlt hmem helig hdom
    rw [List.foldl_cons]
    by_cases he : e = (pid, t)
    · subst he
      obtain ⟨p, hl, hd⟩ := helig
      have hstep : targStep players acc (pid, t) = (t, pid) := by
        unfold targStep
        rw [hl]
        exact if_pos ⟨hd, hlt⟩
      rw [hstep]
      refine foldl_targStep_stable players rest (t, pid) fun f hf hfe => ?_
      by_cases hft : f.1 = pid ∧ f.2 = t
      · exact le_of_eq hft.2
      · exact le_of_lt (hdom f.1 f.2 (List.mem_cons_of_mem _ hf) hfe hft)
    · have hmem' : (pid, t) ∈ rest := by
        rcases List.mem_cons.mp hmem with heq | h
        · exact absurd heq.symm he
        · exact h
      have hdom' : ∀ p u, (p, u) ∈ rest → eligibleP players p →
          ¬(p = pid ∧ u = t) → u < t :=
        fun p u hm hpe hne => hdom p u (List.mem_cons_of_mem _ hm) hpe hne
      rcases targStep_cases players acc e with heq | ⟨hee, hacc, heq⟩
      · rw [heq]; exact ih acc pid t hlt hmem' helig hdom'
      · rw [heq]
        have hne : ¬(e.1 = pid ∧ e.2 = t) := fun hc =>
          he (Prod.ext hc.1 hc.2)
        have : e.2 < t := hdom e.1 e.2 (List.mem_cons_self e rest) hee hne
        exact ih (e.2, e.1) pid t this hmem' helig hdom'


/-- A connected warrior with default spawn stats, the base of the concrete
fixtures below (cf. the default player built on connection in the server). -/
def basePlayer : Player where
  id := "p"
  x := 0
  y := 0
  Class := "warrior"
  health := 100
  maxHealth := 100
  mana := 0
  maxMana := 100
  dead := false
  weapon := none

/-- A small enemy used by the concrete fixtures below. -/
def baseEnemy : Enemy where
  id := "e1"
  x := 0
  y := 0
  health := 10
  maxHealth := 10
  targetID := ""
  lastAttack := 0
  threatList := []
  weapon := none

/-- Fixture for C3: a single connected, living player `p1`. -/
def soloPlayers : List (String × Player) := [("p1", { basePlayer with id := "p1" })]

/-- **C3 (counterexample).** The claim says target selection picks the
connected, non-dead player holding the strictly highest threat value, clearing
the target only when no eligible entry exists.  Refutation at a concrete
input: the single connected, living player `p1` holds the (strictly highest)
threat value `0`; the claim demands `p1` become (or stay) the target, but
`updateEnemyTarget` accepts only threat strictly above its zero-initialised
running maximum, so it clears the target instead. -/
theorem C3_counterexample :
    eligibleP soloPlayers "p1" ∧
    (updateEnemyTarget soloPlayers
      { baseEnemy with targetID := "p1", threatList := [("p1", 0)] }).targetID = "" := by
  constructor
  · exact ⟨_, rfl, rfl⟩
  · simp [updateEnemyTarget, selectTarget, targStep, lookupA, soloPlayers]

/-- **C3 (amended).** Target selection, amended only where the counterexample
forces: the connected, non-dead player holding the strictly highest threat
value becomes the target *provided that value is strictly positive*; if every
eligible entry has threat `≤ 0` (in particular if no eligible entry exists at
all) the target is cleared; and a dead or disconnected player is never
selected. -/
theorem C3_amended (players : List (String × Player)) (enemy : Enemy) :
    (∀ pid t, (pid, t) ∈ enemy.threatList → eligibleP players pid → 0 < t →
      (∀ p u, (p, u) ∈ enemy.threatList → eligibleP players p →
        ¬(p = pid ∧ u = t) → u < t) →
      (updateEnemyTarget players enemy).targetID = pid) ∧
    ((∀ p u, (p, u) ∈ enemy.threatList → eligibleP players p → u ≤ 0) →
      (updateEnemyTarget players enemy).targetID = "") ∧
    ((updateEnemyTarget players enemy).targetID ≠ "" →
      eligibleP players (updateEnemyTarget players enemy).targetID) := by
  refine ⟨fun pid t hm he ht hdom => ?_, fun h => ?_, fun hne => ?_⟩
  · show (enemy.threatList.foldl (targStep players) (0, "")).2 = pid
    rw [foldl_targStep_dominant players enemy.threatList (0, "") pid t ht hm he hdom]
  · show (enemy.threatList.foldl (targStep players) (0, "")).2 = ""
    rw [foldl_targStep_stable players enemy.threatList (0, "")
      fun e hm hel => h e.1 e.2 hm hel]
  · rcases foldl_targStep_sound players enemy.threatList (0, "") le_rfl with h | h
    · exact absurd (congrArg Prod.snd h) hne
    · obtain ⟨pid, t, _, hel, hf, _⟩ := h
      show eligibleP players (enemy.threatList.foldl (targStep players) (0, "")).2
      rw [hf]
      exact hel

/-- Fixture from the spec's threat/targeting test: connected players
`p1`, `p2` and a dead `p3`. -/
def threatPlayers : List (String × Player) :=
  [("p1", { basePlayer with id := "p1" }),
    ("p2", { basePlayer with id := "p2" }),
    ("p3", { basePlayer with id := "p3", dead := true })]

/-- Threat table `p1 = 5`, `p2 = 7`, `p3 = 100` for the fixture above. -/
def threatEnemy : Enemy :=
  { baseEnemy with threatList := [("p1", 5), ("p2", 7), ("p3", 100)] }

/-- Witness for `C3_amended` at the spec's own fixture: connected players
`p1 = 5`, `p2 = 7` and a dead `p3 = 100`; selection returns `p2`, never `p3`. -/
theorem C3_amended_witness :
    (updateEnemyTarget threatPlayers threatEnemy).targetID = "p2" := by
  refine (C3_amended threatPlayers threatEnemy).1 "p2" 7 ?_ ⟨_, rfl, rfl⟩
    (by norm_num) ?_
  · simp [threatEnemy, baseEnemy]
  · intro p u hm hel hne
    simp only [threatEnemy, baseEnemy, List.mem_cons, List.not_mem_nil, or_false,
      Prod.mk.injEq] at hm
    rcases hm with ⟨rfl, rfl⟩ | ⟨rfl, rfl⟩ | ⟨rfl, rfl⟩
    · norm_num
    · exact absurd ⟨rfl, rfl⟩ hne
    · exfalso
      obtain ⟨p, hl, hd⟩ := hel
      have heval : lookupA threatPlayers "p3" =
          some { basePlayer with id := "p3", dead := true } := rfl
      rw [heval] at hl
      cases hl
      simp [basePlayer] at hd

/-- **C10.** Whenever `updateEnemyTarget` leaves a non-empty target, that
target is a key of the enemy's threat table carrying a strictly positive
score, and names a connected, non-dead player: the scan starts its running
maximum at `0` and takes only strict improvements from eligible entries. -/
theorem C10_target_has_positive_threat (players : List (String × Player))
    (enemy : Enemy) (h : (updateEnemyTarget players enemy).targetID ≠ "") :
    ∃ t, ((updateEnemyTarget players enemy).targetID, t) ∈ enemy.threatList ∧
      0 < t ∧ eligibleP players (updateEnemyTarget players enemy).targetID := by
  rcases foldl_targStep_sound players enemy.threatList (0, "") le_rfl with hf | hf
  · exact absurd (congrArg Prod.snd hf) h
  · obtain ⟨pid, t, hm, hel, hf, ht⟩ := hf
    refine ⟨t, ?_, ht, ?_⟩
    · show ((enemy.threatList.foldl (targStep players) (0, "")).2, t) ∈
        enemy.threatList
      rw [hf]
      exact hm
    · show eligibleP players (enemy.threatList.foldl (targStep players) (0, "")).2
      rw [hf]
      exact hel

/-- Fixture for the C10 witness: the single player `p1` with threat `5`. -/
def soloThreatEnemy : Enemy := { baseEnemy with threatList := [("p1", 5)] }

/-- Witness for `C10_target_has_positive_threat`: a single connected player
with threat `5` becomes the target, backed by a positive stored score. -/
theorem C10_witness :
    ∃ t, ((updateEnemyTarget soloPlayers soloThreatEnemy).targetID, t) ∈
        soloThreatEnemy.threatList ∧ 0 < t ∧
      eligibleP soloPlayers (updateEnemyTarget soloPlayers soloThreatEnemy).targetID :=
  C10_target_has_positive_threat soloPlayers soloThreatEnemy
    (by norm_num [updateEnemyTarget, selectTarget, targStep, lookupA, soloPlayers,
      soloThreatEnemy, baseEnemy, basePlayer]; decide)

/-- Attack damage of a player: `damage := 1; if attacker.Weapon != nil`
use the weapon's damage (`handleCombat` / `handleCriticalStrike`). -/
def playerWeaponDamage (p : Player) : Int :=
  match p.weapon with
  | some w => w.damage
  | none => 1

/-- The mutable server state the combat handlers touch: the player and enemy
maps of `GameServer` (the broadcast channel is modelled as a returned list). -/
structure GameState where
  players : List (String × Player)
  enemies : List (String × Enemy)
deriving DecidableEq, Repr

/-- `server.handleCombat`: basic attack.  Missing enemy: no state change, no
broadcast.  Otherwise subtract weapon damage (1 if unarmed) from the enemy's
health; a warrior attacker below max rage gains `min(max, rage+5)` and has a
`player_update` broadcast; add the damage to the enemy's threat entry for the
attacker; re-run target selection; then either remove the enemy and broadcast
the minimal death marker (health ≤ 0) or store it and broadcast the full
snapshot.  (Go receives the attacker as a live pointer out of the players map;
that lookup is modelled explicitly and cannot fail in Go.) -/
def handleCombat (s : GameState) (attackerID targetEnemyID : String) :
    GameState × List Msg :=
  match lookupA s.enemies targetEnemyID with
  | none => (s, [])
  | some enemy =>
    match lookupA s.players attackerID with
    | none => (s, [])
    | some attacker =>
      let damage := playerWeaponDamage attacker
      let enemy1 := { enemy with health := enemy.health - damage }
      let raged := { attacker with mana := min attacker.maxMana (attacker.mana + 5) }
      let players1 :=
        if attacker.Class = "warrior" ∧ attacker.mana < attacker.maxMana then
          setA s.players attackerID raged
        else s.players
      let pmsgs :=
        if attacker.Class = "warrior" ∧ attacker.mana < attacker.maxMana then
          [Msg.playerUpdate raged.id raged]
        else ([] : List Msg)
      let enemy2 := { enemy1 with
          threatList := bumpThreat enemy1.threatList attacker.id (damage : ℚ) }
      let enemy3 := updateEnemyTarget players1 enemy2
      if enemy3.health ≤ 0 then
        (⟨players1, eraseA s.enemies targetEnemyID⟩,
          pmsgs ++ [Msg.enemyDeath targetEnemyID])
      else
        (⟨players1, setA s.enemies targetEnemyID enemy3⟩,
          pmsgs ++ [Msg.enemyUpdate enemy3])

/-- `server.handleCriticalStrike`: gated on class "warrior" and rage ≥ 30 and
an existing enemy (each failure: no state change, no broadcast).  On success:
consume 30 rage, deal `2 * weaponDamage + 3`, add it to the threat entry,
re-run target selection, broadcast the attacker's `player_update` and then
either the death marker (removing the enemy) or the full enemy snapshot. -/
def handleCriticalStrike (s : GameState) (attackerID targetEnemyID : String) :
    GameState × List Msg :=
  match lookupA s.players attackerID with
  | none => (s, [])
  | some attacker =>
    if attacker.Class ≠ "warrior" then (s, [])
    else if attacker.mana < 30 then (s, [])
    else
      match lookupA s.enemies targetEnemyID with
      | none => (s, [])
      | some enemy =>
        let attacker1 := { attacker with mana := attacker.mana - 30 }
        let players1 := setA s.players attackerID attacker1
        let critDamage := playerWeaponDamage attacker * 2 + 3
        let enemy1 := { enemy with health := enemy.health - critDamage }
        let enemy2 := { enemy1 with
            threatList := bumpThreat enemy1.threatList attacker.id (critDamage : ℚ) }
        let enemy3 := updateEnemyTarget players1 enemy2
        if enemy3.health ≤ 0 then
          (⟨players1, eraseA s.enemies targetEnemyID⟩,
            [Msg.playerUpdate attacker1.id attacker1, Msg.enemyDeath targetEnemyID])
        else
          (⟨players1, setA s.enemies targetEnemyID enemy3⟩,
            [Msg.playerUpdate attacker1.id attacker1, Msg.enemyUpdate enemy3])

theorem lookupA_setA_self {α : Type} (l : List (String × α)) (k : String)
    (v w : α) (h : lookupA l k = some w) : lookupA (setA l k v) k = some v := by
  induction l with
  | nil => simp [lookupA] at h
  | cons e rest ih =>
    obtain ⟨ek, ev⟩ := e
    by_cases hk : ek = k
    · simp [setA, lookupA, hk]
    · simp only [setA, lookupA, hk, if_false, ite_false] at h ⊢
      exact ih h

theorem lookupA_eq_none_of_not_mem {α : Type} (l : List (String × α))
    (k : String) (h : k ∉ l.map Prod.fst) : lookupA l k = none := by
  induction l with
  | nil => rfl
  | cons e rest ih =>
    obtain ⟨ek, ev⟩ := e
    simp only [List.map_cons, List.mem_cons] at h
    push_neg at h
    simp only [lookupA]
    rw [if_neg (Ne.symm h.1), ih h.2]

theorem lookupA_eraseA_self {α : Type} (l : List (String × α)) (k : String)
    (hnd : (l.map Prod.fst).Nodup) : lookupA (eraseA l k) k = none := by
  induction l with
  | nil => rfl
  | cons e rest ih =>
    obtain ⟨ek, ev⟩ := e
    simp only [List.map_cons, List.nodup_cons] at hnd
    by_cases hk : ek = k
    · subst hk
      simp only [eraseA, if_pos rfl]
      exact lookupA_eq_none_of_not_mem rest ek hnd.1
    · simp only [eraseA, lookupA, if_neg hk]
      exact ih hnd.2

theorem threatOf_bumpThreat (tl : List (String × ℚ)) (k : String) (d : ℚ) :
    threatOf (bumpThreat tl k d) k = threatOf tl k + d := by
  induction tl with
  | nil => simp [bumpThreat, threatOf, lookupA]
  | cons e rest ih =>
    obtain ⟨ek, ev⟩ := e
    by_cases hk : ek = k
    · simp [bumpThreat, threatOf, lookupA, hk]
    · simp only [bumpThreat, threatOf, lookupA, hk, if_false, ite_false] at ih ⊢
      exact ih

/-- **C4.** Domain-rule-violating combat attempts are complete no-ops: a
critical strike by a non-warrior, a critical strike with rage below 30, and an
attack or critical strike naming a nonexistent enemy all return the server
state unchanged and enqueue zero broadcasts. -/
theorem C4_violations_are_noops (s : GameState) (attackerID targetEnemyID : String)
    (atk : Player) (hA : lookupA s.players attackerID = some atk) :
    (atk.Class ≠ "warrior" →
      handleCriticalStrike s attackerID targetEnemyID = (s, [])) ∧
    (atk.mana < 30 →
      handleCriticalStrike s attackerID targetEnemyID = (s, [])) ∧
    (lookupA s.enemies targetEnemyID = none →
      handleCriticalStrike s attackerID targetEnemyID = (s, []) ∧
      handleCombat s attackerID targetEnemyID = (s, [])) := by
  refine ⟨fun hw => ?_, fun hr => ?_, fun hE => ⟨?_, ?_⟩⟩
  · simp [handleCriticalStrike, hA, hw]
  · by_cases hw : atk.Class ≠ "warrior"
    · simp [handleCriticalStrike, hA, hw]
    · simp [handleCriticalStrike, hA, hw, hr]
  · by_cases hw : atk.Class ≠ "warrior"
    · simp [handleCriticalStrike, hA, hw]
    · by_cases hr : atk.mana < 30
      · simp [handleCriticalStrike, hA, hw, hr]
      · simp [handleCriticalStrike, hA, hw, hr, hE]
  · simp [handleCombat, hE]

/-- Fixture for the C4 witness: a lone mage with empty rage facing an empty
enemy map. -/
def mageState : GameState :=
  ⟨[("p1", { basePlayer with id := "p1", Class := "mage" })], []⟩

/-- Witness for `C4_violations_are_noops`: the mage's critical strike, the
low-rage critical strike and the attack on the nonexistent enemy `e1` all
leave the state untouched with zero broadcasts. -/
theorem C4_witness :
    (({ basePlayer with id := "p1", Class := "mage" } : Player).Class ≠ "warrior" →
      handleCriticalStrike mageState "p1" "e1" = (mageState, [])) ∧
    (({ basePlayer with id := "p1", Class := "mage" } : Player).mana < 30 →
      handleCriticalStrike mageState "p1" "e1" = (mageState, [])) ∧
    (lookupA mageState.enemies "e1" = none →
      handleCriticalStrike mageState "p1" "e1" = (mageState, []) ∧
      handleCombat mageState "p1" "e1" = (mageState, [])) :=
  C4_violations_are_noops mageState "p1" "e1" _ rfl

/-- Fixture for the C2 counterexample: a warrior already at max rage (100/100)
wielding a damage-5 weapon. -/
def fullRageWarrior : Player :=
  { basePlayer with id := "p1", mana := 100, weapon := some ⟨5, 1, 2000000000⟩ }

/-- Server state holding the full-rage warrior and one health-10 enemy. -/
def fullRageState : GameState := ⟨[("p1", fullRageWarrior)], [("e1", baseEnemy)]⟩

/-- The enemy after the basic attack in the C2 counterexample. -/
def c2EnemyAfter : Enemy :=
  { baseEnemy with health := 5, targetID := "p1", threatList := [("p1", 5)] }

/-- **C2 (counterexample).** The claim says a successful basic attack by a
warrior broadcasts the attacker's updated state.  Refutation at a concrete
input: the attacker is a warrior attacking an existing enemy, yet because its
rage already equals max (the Go code gates the rage grant *and* the broadcast
on `Mana < MaxMana`), the broadcast list is exactly one `enemy_update`
snapshot and contains no `player_update`. -/
theorem C2_counterexample :
    fullRageWarrior.Class = "warrior" ∧
    fullRageWarrior.mana = fullRageWarrior.maxMana ∧
    (lookupA fullRageState.enemies "e1").isSome = true ∧
    (handleCombat fullRageState "p1" "e1").2 = [Msg.enemyUpdate c2EnemyAfter] := by
  refine ⟨rfl, rfl, rfl, ?_⟩
  norm_num [handleCombat, lookupA, fullRageState, fullRageWarrior, basePlayer,
    baseEnemy, playerWeaponDamage, updateEnemyTarget, selectTarget, targStep,
    bumpThreat, threatOf, c2EnemyAfter]

theorem updateEnemyTarget_health (players : List (String × Player)) (e : Enemy) :
    (updateEnemyTarget players e).health = e.health := rfl

theorem updateEnemyTarget_threatList (players : List (String × Player)) (e : Enemy) :
    (updateEnemyTarget players e).threatList = e.threatList := rfl

/-- **C2 (amended).** A successful basic attack on an existing enemy subtracts
the attacker's weapon damage (1 if unarmed) from the enemy's health and adds
exactly that damage to the enemy's threat entry for the attacker.  A warrior
attacker ends with rage `min(max, rage+5)`, but the attacker's updated state is
broadcast *only when its rage was below max* (so the value actually changed);
with rage at max there is no rage change and no `player_update`.  If the
resulting health is ≤ 0 the enemy is removed from the store and the broadcast
is the minimal death marker, otherwise one full snapshot is broadcast. -/
theorem C2_amended (s : GameState) (attackerID targetEnemyID : String)
    (atk : Player) (en : Enemy)
    (hA : lookupA s.players attackerID = some atk)
    (hE : lookupA s.enemies targetEnemyID = some en)
    (hm : atk.mana ≤ atk.maxMana)
    (hnd : (s.enemies.map Prod.fst).Nodup) :
    ((atk.Class = "warrior" →
        (lookupA (handleCombat s attackerID targetEnemyID).1.players attackerID).map
          Player.mana = some (min atk.maxMana (atk.mana + 5))) ∧
      (¬(atk.Class = "warrior" ∧ atk.mana < atk.maxMana) →
        (handleCombat s attackerID targetEnemyID).1.players = s.players)) ∧
    (en.health - playerWeaponDamage atk ≤ 0 →
      lookupA (handleCombat s attackerID targetEnemyID).1.enemies targetEnemyID
          = none ∧
      (handleCombat s attackerID targetEnemyID).2 =
        (if atk.Class = "warrior" ∧ atk.mana < atk.maxMana then
          [Msg.playerUpdate atk.id { atk with mana := min atk.maxMana (atk.mana + 5) }]
        else []) ++ [Msg.enemyDeath targetEnemyID]) ∧
    (0 < en.health - playerWeaponDamage atk →
      ∃ en2, lookupA (handleCombat s attackerID targetEnemyID).1.enemies targetEnemyID
          = some en2 ∧
        en2.health = en.health - playerWeaponDamage atk ∧
        threatOf en2.threatList atk.id =
          threatOf en.threatList atk.id + (playerWeaponDamage atk : ℚ) ∧
        (handleCombat s attackerID targetEnemyID).2 =
          (if atk.Class = "warrior" ∧ atk.mana < atk.maxMana then
            [Msg.playerUpdate atk.id { atk with mana := min atk.maxMana (atk.mana + 5) }]
          else []) ++ [Msg.enemyUpdate en2]) := by
  refine ⟨⟨fun hw => ?_, fun hcond => ?_⟩, fun hdth => ?_, fun hliv => ?_⟩
  · by_cases hlt : atk.mana < atk.maxMana
    · have hcond : atk.Class = "warrior" ∧ atk.mana < atk.maxMana := ⟨hw, hlt⟩
      have hset := lookupA_setA_self s.players attackerID
        { atk with mana := min atk.maxMana (atk.mana + 5) } atk hA
      simp only [handleCombat, hA, hE, if_pos hcond]
      split
      · rw [hset]; rfl
      · rw [hset]; rfl
    · have hcond : ¬(atk.Class = "warrior" ∧ atk.mana < atk.maxMana) :=
        fun hc => hlt hc.2
      simp only [handleCombat, hA, hE, if_neg hcond]
      split
      · show (lookupA s.players attackerID).map Player.mana = _
        rw [hA]
        simp only [Option.map_some']
        congr 1
        omega
      · show (lookupA s.players attackerID).map Player.mana = _
        rw [hA]
        simp only [Option.map_some']
        congr 1
        omega
  · simp only [handleCombat, hA, hE, if_neg hcond]
    split
    · rfl
    · rfl
  · have key : handleCombat s attackerID targetEnemyID =
        (⟨if atk.Class = "warrior" ∧ atk.mana < atk.maxMana then
            setA s.players attackerID
              { atk with mana := min atk.maxMana (atk.mana + 5) }
          else s.players,
          eraseA s.enemies targetEnemyID⟩,
          (if atk.Class = "warrior" ∧ atk.mana < atk.maxMana then
            [Msg.playerUpdate atk.id
              { atk with mana := min atk.maxMana (atk.mana + 5) }]
          else []) ++ [Msg.enemyDeath targetEnemyID]) := by
      simp only [handleCombat, hA, hE, updateEnemyTarget_health]
      rw [if_pos hdth]
    rw [key]
    exact ⟨lookupA_eraseA_self s.enemies targetEnemyID hnd, rfl⟩
  · have key : handleCombat s attackerID targetEnemyID =
        (⟨if atk.Class = "warrior" ∧ atk.mana < atk.maxMana then
            setA s.players attackerID
              { atk with mana := min atk.maxMana (atk.mana + 5) }
          else s.players,
          setA s.enemies targetEnemyID
            (updateEnemyTarget
              (if atk.Class = "warrior" ∧ atk.mana < atk.maxMana then
                setA s.players attackerID
                  { atk with mana := min atk.maxMana (atk.mana + 5) }
              else s.players)
              { en with health := en.health - playerWeaponDamage atk, threatList := bumpThreat en.threatList atk.id ((playerWeaponDamage atk : ℚ)) })⟩,
          (if atk.Class = "warrior" ∧ atk.mana < atk.maxMana then
            [Msg.playerUpdate atk.id
              { atk with mana := min atk.maxMana (atk.mana + 5) }]
          else []) ++ [Msg.enemyUpdate
            (updateEnemyTarget
              (if atk.Class = "warrior" ∧ atk.mana < atk.maxMana then
                setA s.players attackerID
                  { atk with mana := min atk.maxMana (atk.mana + 5) }
              else s.players)
              { en with health := en.health - playerWeaponDamage atk, threatList := bumpThreat en.threatList atk.id ((playerWeaponDamage atk : ℚ)) })]) := by
      simp only [handleCombat, hA, hE, updateEnemyTarget_health]
      rw [if_neg (not_le.mpr hliv)]
    rw [key]
    exact ⟨_, lookupA_setA_self s.enemies targetEnemyID _ en hE, rfl,
      threatOf_bumpThreat en.threatList atk.id _, rfl⟩

/-- Fixture for the C2 witness (spec scenario 1): a zero-rage warrior with a
damage-5 weapon. -/
def c2wPlayer : Player :=
  { basePlayer with id := "p1", weapon := some ⟨5, 1, 2000000000⟩ }

/-- Server state for the C2 witness: the warrior and one health-10 enemy. -/
def c2wState : GameState := ⟨[("p1", c2wPlayer)], [("e1", baseEnemy)]⟩

/-- Witness for `C2_amended` at spec scenario 1: weapon damage 5 against a
health-10 enemy (health becomes 5, rage 0 → 5, snapshot broadcast). -/
theorem C2_amended_witness :
    ((c2wPlayer.Class = "warrior" →
        (lookupA (handleCombat c2wState "p1" "e1").1.players "p1").map
          Player.mana = some (min c2wPlayer.maxMana (c2wPlayer.mana + 5))) ∧
      (¬(c2wPlayer.Class = "warrior" ∧ c2wPlayer.mana < c2wPlayer.maxMana) →
        (handleCombat c2wState "p1" "e1").1.players = c2wState.players)) ∧
    (baseEnemy.health - playerWeaponDamage c2wPlayer ≤ 0 →
      lookupA (handleCombat c2wState "p1" "e1").1.enemies "e1" = none ∧
      (handleCombat c2wState "p1" "e1").2 =
        (if c2wPlayer.Class = "warrior" ∧ c2wPlayer.mana < c2wPlayer.maxMana then
          [Msg.playerUpdate c2wPlayer.id
            { c2wPlayer with mana := min c2wPlayer.maxMana (c2wPlayer.mana + 5) }]
        else []) ++ [Msg.enemyDeath "e1"]) ∧
    (0 < baseEnemy.health - playerWeaponDamage c2wPlayer →
      ∃ en2, lookupA (handleCombat c2wState "p1" "e1").1.enemies "e1" = some en2 ∧
        en2.health = baseEnemy.health - playerWeaponDamage c2wPlayer ∧
        threatOf en2.threatList c2wPlayer.id =
          threatOf baseEnemy.threatList c2wPlayer.id +
            (playerWeaponDamage c2wPlayer : ℚ) ∧
        (handleCombat c2wState "p1" "e1").2 =
          (if c2wPlayer.Class = "warrior" ∧ c2wPlayer.mana < c2wPlayer.maxMana then
            [Msg.playerUpdate c2wPlayer.id
              { c2wPlayer with mana := min c2wPlayer.maxMana (c2wPlayer.mana + 5) }]
          else []) ++ [Msg.enemyUpdate en2]) :=
  C2_amended c2wState "p1" "e1" c2wPlayer baseEnemy rfl rfl
    (by norm_num [c2wPlayer, basePlayer]) (by simp [c2wState])

/-- **C5.** A successful critical strike (warrior, rage ≥ 30, existing enemy)
consumes exactly 30 rage, deals `2 * weaponDamage + 3` damage (weaponDamage 1
if unarmed), adds that damage to the enemy's threat entry for the attacker,
and broadcasts the attacker's `player_update` followed by an `enemy_update`:
the full snapshot when the enemy survives, the minimal death marker (with the
enemy removed from the store) when its health reaches ≤ 0. -/
theorem C5_critical_strike (s : GameState) (attackerID targetEnemyID : String)
    (atk : Player) (en : Enemy)
    (hA : lookupA s.players attackerID = some atk)
    (hE : lookupA s.enemies targetEnemyID = some en)
    (hw : atk.Class = "warrior") (hr : 30 ≤ atk.mana)
    (hnd : (s.enemies.map Prod.fst).Nodup) :
    lookupA (handleCriticalStrike s attackerID targetEnemyID).1.players attackerID =
      some { atk with mana := atk.mana - 30 } ∧
    (en.health - (playerWeaponDamage atk * 2 + 3) ≤ 0 →
      lookupA (handleCriticalStrike s attackerID targetEnemyID).1.enemies
          targetEnemyID = none ∧
      (handleCriticalStrike s attackerID targetEnemyID).2 =
        [Msg.playerUpdate atk.id { atk with mana := atk.mana - 30 },
          Msg.enemyDeath targetEnemyID]) ∧
    (0 < en.health - (playerWeaponDamage atk * 2 + 3) →
      ∃ en2, lookupA (handleCriticalStrike s attackerID targetEnemyID).1.enemies
          targetEnemyID = some en2 ∧
        en2.health = en.health - (playerWeaponDamage atk * 2 + 3) ∧
        threatOf en2.threatList atk.id =
          threatOf en.threatList atk.id + ((playerWeaponDamage atk * 2 + 3 : Int) : ℚ) ∧
        (handleCriticalStrike s attackerID targetEnemyID).2 =
          [Msg.playerUpdate atk.id { atk with mana := atk.mana - 30 },
            Msg.enemyUpdate en2]) := by
  have hgate1 : ¬(atk.Class ≠ "warrior") := fun hc => hc hw
  have hgate2 : ¬(atk.mana < 30) := not_lt.mpr hr
  by_cases hd : en.health - (playerWeaponDamage atk * 2 + 3) ≤ 0
  · have key : handleCriticalStrike s attackerID targetEnemyID =
        (⟨setA s.players attackerID { atk with mana := atk.mana - 30 },
          eraseA s.enemies targetEnemyID⟩,
          [Msg.playerUpdate atk.id { atk with mana := atk.mana - 30 },
            Msg.enemyDeath targetEnemyID]) := by
      simp only [handleCriticalStrike, hA, if_neg hgate1, if_neg hgate2, hE,
        updateEnemyTarget_health]
      rw [if_pos hd]
    rw [key]
    exact ⟨lookupA_setA_self s.players attackerID _ atk hA,
      fun _ => ⟨lookupA_eraseA_self s.enemies targetEnemyID hnd, rfl⟩,
      fun hliv => absurd hd (not_le.mpr hliv)⟩
  · have key : handleCriticalStrike s attackerID targetEnemyID =
        (⟨setA s.players attackerID { atk with mana := atk.mana - 30 },
          setA s.enemies targetEnemyID
            (updateEnemyTarget
              (setA s.players attackerID { atk with mana := atk.mana - 30 })
              { en with health := en.health - (playerWeaponDamage atk * 2 + 3), threatList := bumpThreat en.threatList atk.id (((playerWeaponDamage atk * 2 + 3 : Int)) : ℚ) })⟩,
          [Msg.playerUpdate atk.id { atk with mana := atk.mana - 30 },
            Msg.enemyUpdate
              (updateEnemyTarget
                (setA s.players attackerID { atk with mana := atk.mana - 30 })
                { en with health := en.health - (playerWeaponDamage atk * 2 + 3), threatList := bumpThreat en.threatList atk.id (((playerWeaponDamage atk * 2 + 3 : Int)) : ℚ) })]) := by
      simp only [handleCriticalStrike, hA, if_neg hgate1, if_neg hgate2, hE,
        updateEnemyTarget_health]
      rw [if_neg hd]
    rw [key]
    exact ⟨lookupA_setA_self s.players attackerID _ atk hA,
      fun hdth => absurd hdth hd,
      fun _ => ⟨_, lookupA_setA_self s.enemies targetEnemyID _ en hE, rfl,
        threatOf_bumpThreat en.threatList atk.id _, rfl⟩⟩

/-- Fixture for the C5 witness (spec scenario 3): a warrior with exactly 30
rage and a damage-5 weapon. -/
def c5Warr : Player :=
  { basePlayer with id := "p1", mana := 30, weapon := some ⟨5, 1, 2000000000⟩ }

/-- A health-100 enemy for the C5 witness. -/
def c5Enemy : Enemy := { baseEnemy with health := 100, maxHealth := 100 }

/-- Server state for the C5 witness. -/
def c5State : GameState := ⟨[("p1", c5Warr)], [("e1", c5Enemy)]⟩

/-- Witness for `C5_critical_strike` at spec scenario 3: rage 30 → 0, damage
`2*5+3 = 13`, one `player_update` and one `enemy_update` broadcast. -/
theorem C5_critical_strike_witness :
    lookupA (handleCriticalStrike c5State "p1" "e1").1.players "p1" =
      some { c5Warr with mana := c5Warr.mana - 30 } ∧
    (c5Enemy.health - (playerWeaponDamage c5Warr * 2 + 3) ≤ 0 →
      lookupA (handleCriticalStrike c5State "p1" "e1").1.enemies "e1" = none ∧
      (handleCriticalStrike c5State "p1" "e1").2 =
        [Msg.playerUpdate c5Warr.id { c5Warr with mana := c5Warr.mana - 30 },
          Msg.enemyDeath "e1"]) ∧
    (0 < c5Enemy.health - (playerWeaponDamage c5Warr * 2 + 3) →
      ∃ en2, lookupA (handleCriticalStrike c5State "p1" "e1").1.enemies "e1" =
          some en2 ∧
        en2.health = c5Enemy.health - (playerWeaponDamage c5Warr * 2 + 3) ∧
        threatOf en2.threatList c5Warr.id =
          threatOf c5Enemy.threatList c5Warr.id +
            ((playerWeaponDamage c5Warr * 2 + 3 : Int) : ℚ) ∧
        (handleCriticalStrike c5State "p1" "e1").2 =
          [Msg.playerUpdate c5Warr.id { c5Warr with mana := c5Warr.mana - 30 },
            Msg.enemyUpdate en2]) :=
  C5_critical_strike c5State "p1" "e1" c5Warr c5Enemy rfl rfl rfl
    (by norm_num [c5Warr, basePlayer]) (by simp [c5State])

/-- One player's rage-decay step from `server.handleRageDecay`: a warrior with
positive rage loses 2, clamped at 0 (`Mana -= 2; if Mana < 0 { Mana = 0 }`);
everyone else is untouched. -/
def decayPlayer (p : Player) : Player :=
  if p.Class = "warrior" ∧ 0 < p.mana then
    { p with mana := if p.mana - 2 < 0 then 0 else p.mana - 2 }
  else p

/-- One tick of `server.handleRageDecay` over the whole players map: apply the
decay to every player and broadcast a `player_update` exactly when the stored
rage value changed. -/
def rageDecayTick : List (String × Player) → List (String × Player) × List Msg
  | [] => ([], [])
  | (pid, p) :: rest =>
    let p' := decayPlayer p
    let msgs := if p'.mana = p.mana then [] else [Msg.playerUpdate p'.id p']
    let r := rageDecayTick rest
    ((pid, p') :: r.1, msgs ++ r.2)

theorem decayPlayer_mana_ne (p : Player) (h : p.Class = "warrior" ∧ 0 < p.mana) :
    (decayPlayer p).mana ≠ p.mana := by
  simp only [decayPlayer, if_pos h]
  by_cases h2 : p.mana - 2 < 0 <;> simp only [h2, if_pos, if_neg, ite_true,
    ite_false, reduceIte] <;> omega

theorem decayPlayer_eq_self (p : Player) (h : ¬(p.Class = "warrior" ∧ 0 < p.mana)) :
    decayPlayer p = p := by
  simp [decayPlayer, h]

theorem rageDecayTick_players (ps : List (String × Player)) :
    (rageDecayTick ps).1 = ps.map fun e => (e.1, decayPlayer e.2) := by
  induction ps with
  | nil => rfl
  | cons e rest ih =>
    obtain ⟨pid, p⟩ := e
    simp only [rageDecayTick, List.map_cons]
    rw [ih]

theorem rageDecayTick_msgs (ps : List (String × Player)) :
    (rageDecayTick ps).2 = ps.filterMap fun e =>
      if e.2.Class = "warrior" ∧ 0 < e.2.mana then
        some (Msg.playerUpdate (decayPlayer e.2).id (decayPlayer e.2))
      else none := by
  induction ps with
  | nil => rfl
  | cons e rest ih =>
    obtain ⟨pid, p⟩ := e
    by_cases hc : p.Class = "warrior" ∧ 0 < p.mana
    · simp only [rageDecayTick, List.filterMap_cons, if_pos hc,
        if_neg (decayPlayer_mana_ne p hc)]
      rw [ih]
      rfl
    · simp only [rageDecayTick, List.filterMap_cons, if_neg hc,
        decayPlayer_eq_self p hc, if_pos rfl]
      rw [ih]
      rfl

/-- **C9.** One rage-decay tick maps every player entry in place: a connected
warrior with positive rage ends with `max 0 (rage - 2)` (a decrement of
exactly 2, clamped at 0) — a strict change, so exactly one `player_update` is
broadcast for each such warrior and none for anyone else; players of any other
class, and warriors with zero rage, are left completely unchanged. -/
theorem C9_rage_decay (players : List (String × Player)) :
    ((rageDecayTick players).1 = players.map fun e => (e.1, decayPlayer e.2)) ∧
    ((rageDecayTick players).2 = players.filterMap fun e =>
      if e.2.Class = "warrior" ∧ 0 < e.2.mana then
        some (Msg.playerUpdate (decayPlayer e.2).id (decayPlayer e.2))
      else none) ∧
    (∀ p : Player, p.Class = "warrior" → 0 < p.mana →
      (decayPlayer p).mana = max 0 (p.mana - 2) ∧
      (decayPlayer p).mana ≠ p.mana ∧
      (decayPlayer p).id = p.id ∧
      (decayPlayer p).Class = p.Class ∧
      (decayPlayer p).health = p.health ∧
      (decayPlayer p).maxMana = p.maxMana) ∧
    (∀ p : Player, ¬(p.Class = "warrior" ∧ 0 < p.mana) → decayPlayer p = p) := by
  refine ⟨rageDecayTick_players players, rageDecayTick_msgs players,
    fun p h1 h2 => ?_, fun p h => decayPlayer_eq_self p h⟩
  refine ⟨?_, decayPlayer_mana_ne p ⟨h1, h2⟩, ?_, ?_, ?_, ?_⟩
  · simp only [decayPlayer, if_pos (And.intro h1 h2)]
    by_cases hm : p.mana - 2 < 0 <;> simp only [hm, ite_true, ite_false, reduceIte] <;> omega
  · simp [decayPlayer, And.intro h1 h2]
  · simp [decayPlayer, And.intro h1 h2]
  · simp [decayPlayer, And.intro h1 h2]
  · simp [decayPlayer, And.intro h1 h2]

/-- Fixture for the C9 witness: a warrior with rage 1 (decays to 0, clamped). -/
def decayFixture : Player := { basePlayer with id := "p1", mana := 1 }

/-- Witness for `C9_rage_decay`: the rage-1 warrior ends at `max 0 (1-2) = 0`
with a strict change (hence a broadcast) and untouched identity fields. -/
theorem C9_rage_decay_witness :
    (decayPlayer decayFixture).mana = max 0 (decayFixture.mana - 2) ∧
    (decayPlayer decayFixture).mana ≠ decayFixture.mana ∧
    (decayPlayer decayFixture).id = decayFixture.id ∧
    (decayPlayer decayFixture).Class = decayFixture.Class ∧
    (decayPlayer decayFixture).health = decayFixture.health ∧
    (decayPlayer decayFixture).maxMana = decayFixture.maxMana :=
  (C9_rage_decay [("p1", decayFixture)]).2.2.1 decayFixture rfl
    (by norm_num [decayFixture, basePlayer])

/-- Enemy attack damage: `damage := 2` by default, else the weapon's damage
(`attemptEnemyAttack`). -/
def enemyDamage (e : Enemy) : Int :=
  match e.weapon with
  | some w => w.damage
  | none => 2

/-- Enemy weapon range in pixels: default `30.0`, else `Range * 25` scaled like
the client (`processEnemyAI`). -/
def enemyWeaponRange (e : Enemy) : ℚ :=
  match e.weapon with
  | some w => ((w.range * 25 : Int) : ℚ)
  | none => 30

/-- Enemy attack delay: default 2 seconds (in nanoseconds), else the weapon's
delay (`attemptEnemyAttack`). -/
def enemyWeaponDelay (e : Enemy) : Int :=
  match e.weapon with
  | some w => w.delay
  | none => 2000000000

/-- `server.attemptEnemyAttack`: no-op on a dead target or while the weapon
delay has not elapsed.  Otherwise subtract the enemy's damage from the
target's health, stamp `lastAttack`, grant a warrior defender capped rage
(+3), broadcast the target's updated state, and if health is now ≤ 0 clamp it
to 0, mark the player dead, drop them from the threat table, clear and
reselect the enemy's target, and broadcast the death state.  (Go receives the
target as a live pointer from the players map; the lookup is explicit here.) -/
def attemptEnemyAttack (players : List (String × Player)) (enemy : Enemy)
    (targetID : String) (now : Int) :
    List (String × Player) × Enemy × List Msg :=
  match lookupA players targetID with
  | none => (players, enemy, [])
  | some target =>
    if target.dead then (players, enemy, [])
    else if enemyWeaponDelay enemy < now - enemy.lastAttack then
      let damage := enemyDamage enemy
      let target1a := { target with health := target.health - damage }
      let target1 :=
        if target.Class = "warrior" ∧ target.mana < target.maxMana then
          { target1a with mana := min target.maxMana (target.mana + 3) }
        else target1a
      let enemy1 := { enemy with lastAttack := now }
      if target1.health ≤ 0 then
        let target2 := { target1 with health := 0, dead := true }
        let players2 := setA players targetID target2
        let enemy2 := updateEnemyTarget players2
          { enemy1 with threatList := eraseA enemy1.threatList target.id, targetID := "" }
        (players2, enemy2,
          [Msg.playerUpdate target1.id target1, Msg.playerUpdate target2.id target2])
      else
        (setA players targetID target1, enemy1, [Msg.playerUpdate target1.id target1])
    else (players, enemy, [])

/-- `server.moveEnemyTowardTarget`: for positive distance, step 2 units along
the normalized direction, resolve through the collision resolver, and mutate
plus broadcast only if the resolved position differs from the current one.
`distance`, `dx`, `dy` are passed in by the caller exactly as in Go. -/
def moveEnemyTowardTarget (enemy : Enemy) (target : Player)
    (distance dx dy : ℚ) (walls : List Wall) : Enemy × List Msg :=
  if 0 < distance then
    let newX := enemy.x + dx / distance * 2
    let newY := enemy.y + dy / distance * 2
    let v := CheckWallCollisionWithSliding enemy.x enemy.y newX newY walls
    if v.1 ≠ enemy.x ∨ v.2 ≠ enemy.y then
      ({ enemy with x := v.1, y := v.2 },
        [Msg.enemyUpdate { enemy with x := v.1, y := v.2 }])
    else (enemy, [])
  else (enemy, [])

/-- The targeted branch of `server.processEnemyAI` (a target id is set): clear
and reselect on a vanished target; otherwise chase when the Euclidean distance
to the target exceeds the weapon range, else attempt an attack.  Go computes
`distance = math.Sqrt(dx*dx+dy*dy)`; the embedding takes `distance` as a
parameter that the theorems characterize by `0 ≤ distance` and
`distance^2 = dx^2 + dy^2`, which determine it uniquely. -/
def enemyAIWithTarget (players : List (String × Player)) (enemy : Enemy)
    (walls : List Wall) (now : Int) (distance : ℚ) :
    List (String × Player) × Enemy × List Msg :=
  match lookupA players enemy.targetID with
  | none =>
    (players, updateEnemyTarget players { enemy with targetID := "" }, [])
  | some target =>
    let dx := target.x - enemy.x
    let dy := target.y - enemy.y
    if enemyWeaponRange enemy < distance then
      let r := moveEnemyTowardTarget enemy target distance dx dy walls
      (players, r.1, r.2)
    else
      attemptEnemyAttack players enemy enemy.targetID now

/-- **C8.** On an AI tick, an enemy whose target exists and whose Euclidean
distance to it exceeds the weapon range (range × 25, or 30 if unarmed) takes
exactly one step of length 2 toward the target along the normalized direction
(the desired step's squared length is exactly 4), the step is passed through
the collision resolver whose output becomes the enemy's position, an
`enemy_update` is broadcast exactly when the position actually changed, and
the players map, the enemy's health, threat table, target and attack timestamp
are untouched. -/
theorem C8_chase_step (players : List (String × Player)) (enemy : Enemy)
    (walls : List Wall) (now : Int) (distance : ℚ) (target : Player)
    (hT : lookupA players enemy.targetID = some target)
    (hd0 : 0 ≤ distance)
    (hsq : distance ^ 2 = (target.x - enemy.x) ^ 2 + (target.y - enemy.y) ^ 2)
    (hr : 0 ≤ enemyWeaponRange enemy)
    (hgt : enemyWeaponRange enemy < distance) :
    ((enemy.x + (target.x - enemy.x) / distance * 2) - enemy.x) ^ 2 +
      ((enemy.y + (target.y - enemy.y) / distance * 2) - enemy.y) ^ 2 = 4 ∧
    (enemyAIWithTarget players enemy walls now distance).1 = players ∧
    (enemyAIWithTarget players enemy walls now distance).2.1.x =
      (CheckWallCollisionWithSliding enemy.x enemy.y
        (enemy.x + (target.x - enemy.x) / distance * 2)
        (enemy.y + (target.y - enemy.y) / distance * 2) walls).1 ∧
    (enemyAIWithTarget players enemy walls now distance).2.1.y =
      (CheckWallCollisionWithSliding enemy.x enemy.y
        (enemy.x + (target.x - enemy.x) / distance * 2)
        (enemy.y + (target.y - enemy.y) / distance * 2) walls).2 ∧
    (enemyAIWithTarget players enemy walls now distance).2.2 =
      (if (CheckWallCollisionWithSliding enemy.x enemy.y
            (enemy.x + (target.x - enemy.x) / distance * 2)
            (enemy.y + (target.y - enemy.y) / distance * 2) walls).1 ≠ enemy.x ∨
          (CheckWallCollisionWithSliding enemy.x enemy.y
            (enemy.x + (target.x - enemy.x) / distance * 2)
            (enemy.y + (target.y - enemy.y) / distance * 2) walls).2 ≠ enemy.y then
        [Msg.enemyUpdate (enemyAIWithTarget players enemy walls now distance).2.1]
      else []) ∧
    (enemyAIWithTarget players enemy walls now distance).2.1.health = enemy.health ∧
    (enemyAIWithTarget players enemy walls now distance).2.1.threatList =
      enemy.threatList ∧
    (enemyAIWithTarget players enemy walls now distance).2.1.targetID =
      enemy.targetID ∧
    (enemyAIWithTarget players enemy walls now distance).2.1.lastAttack =
      enemy.lastAttack := by
  have hdpos : 0 < distance := lt_of_le_of_lt hr hgt
  have hdne : distance ≠ 0 := ne_of_gt hdpos
  have hstep : ((enemy.x + (target.x - enemy.x) / distance * 2) - enemy.x) ^ 2 +
      ((enemy.y + (target.y - enemy.y) / distance * 2) - enemy.y) ^ 2 = 4 := by
    have h4 : (target.x - enemy.x) ^ 2 + (target.y - enemy.y) ^ 2 = distance ^ 2 :=
      hsq.symm
    field_simp
    linear_combination 4 * h4
  have hkey : enemyAIWithTarget players enemy walls now distance =
      (players, moveEnemyTowardTarget enemy target distance
        (target.x - enemy.x) (target.y - enemy.y) walls) := by
    simp only [enemyAIWithTarget, hT]
    rw [if_pos hgt]
  refine ⟨hstep, ?_⟩
  rw [hkey]
  simp only [moveEnemyTowardTarget]
  rw [if_pos hdpos]
  by_cases hch :
      (CheckWallCollisionWithSliding enemy.x enemy.y
        (enemy.x + (target.x - enemy.x) / distance * 2)
        (enemy.y + (target.y - enemy.y) / distance * 2) walls).1 ≠ enemy.x ∨
      (CheckWallCollisionWithSliding enemy.x enemy.y
        (enemy.x + (target.x - enemy.x) / distance * 2)
        (enemy.y + (target.y - enemy.y) / distance * 2) walls).2 ≠ enemy.y
  · rw [if_pos hch, if_pos hch]
    refine ⟨?_, ?_, ?_, ?_, ?_, ?_, ?_, ?_⟩ <;> first | rfl | trivial
  · rw [if_neg hch, if_neg hch]
    push_neg at hch
    refine ⟨?_, ?_, ?_, ?_, ?_, ?_, ?_, ?_⟩ <;>
      first | rfl | trivial | exact hch.1.symm | exact hch.2.symm

/-- Chase fixture: the target player at `(30, 40)`. -/
def chaseTarget : Player := { basePlayer with id := "t1", x := 30, y := 40 }

/-- Chase fixture: an unarmed enemy at the origin targeting `t1`; its weapon
range defaults to 30 while the distance to the target is 50. -/
def chaseEnemy : Enemy := { baseEnemy with targetID := "t1" }

/-- Witness for `C8_chase_step`: distance 50 > range 30, so the enemy steps 2
units toward `(30, 40)` through the (empty) wall set. -/
theorem C8_chase_step_witness :
    ((chaseEnemy.x + (chaseTarget.x - chaseEnemy.x) / 50 * 2) - chaseEnemy.x) ^ 2 +
      ((chaseEnemy.y + (chaseTarget.y - chaseEnemy.y) / 50 * 2) - chaseEnemy.y) ^ 2
        = 4 ∧
    (enemyAIWithTarget [("t1", chaseTarget)] chaseEnemy [] 0 50).1 =
      [("t1", chaseTarget)] ∧
    (enemyAIWithTarget [("t1", chaseTarget)] chaseEnemy [] 0 50).2.1.x =
      (CheckWallCollisionWithSliding chaseEnemy.x chaseEnemy.y
        (chaseEnemy.x + (chaseTarget.x - chaseEnemy.x) / 50 * 2)
        (chaseEnemy.y + (chaseTarget.y - chaseEnemy.y) / 50 * 2) []).1 ∧
    (enemyAIWithTarget [("t1", chaseTarget)] chaseEnemy [] 0 50).2.1.y =
      (CheckWallCollisionWithSliding chaseEnemy.x chaseEnemy.y
        (chaseEnemy.x + (chaseTarget.x - chaseEnemy.x) / 50 * 2)
        (chaseEnemy.y + (chaseTarget.y - chaseEnemy.y) / 50 * 2) []).2 ∧
    (enemyAIWithTarget [("t1", chaseTarget)] chaseEnemy [] 0 50).2.2 =
      (if (CheckWallCollisionWithSliding chaseEnemy.x chaseEnemy.y
            (chaseEnemy.x + (chaseTarget.x - chaseEnemy.x) / 50 * 2)
            (chaseEnemy.y + (chaseTarget.y - chaseEnemy.y) / 50 * 2) []).1 ≠
              chaseEnemy.x ∨
          (CheckWallCollisionWithSliding chaseEnemy.x chaseEnemy.y
            (chaseEnemy.x + (chaseTarget.x - chaseEnemy.x) / 50 * 2)
            (chaseEnemy.y + (chaseTarget.y - chaseEnemy.y) / 50 * 2) []).2 ≠
              chaseEnemy.y then
        [Msg.enemyUpdate (enemyAIWithTarget [("t1", chaseTarget)] chaseEnemy [] 0 50).2.1]
      else []) ∧
    (enemyAIWithTarget [("t1", chaseTarget)] chaseEnemy [] 0 50).2.1.health =
      chaseEnemy.health ∧
    (enemyAIWithTarget [("t1", chaseTarget)] chaseEnemy [] 0 50).2.1.threatList =
      chaseEnemy.threatList ∧
    (enemyAIWithTarget [("t1", chaseTarget)] chaseEnemy [] 0 50).2.1.targetID =
      chaseEnemy.targetID ∧
    (enemyAIWithTarget [("t1", chaseTarget)] chaseEnemy [] 0 50).2.1.lastAttack =
      chaseEnemy.lastAttack :=
  C8_chase_step [("t1", chaseTarget)] chaseEnemy [] 0 50 chaseTarget rfl
    (by norm_num)
    (by norm_num [chaseTarget, chaseEnemy, basePlayer, baseEnemy])
    (by norm_num [enemyWeaponRange, chaseEnemy, baseEnemy])
    (by norm_num [enemyWeaponRange, chaseEnemy, baseEnemy])

/-- The per-player bounds invariant of the spec: health in `[0, MaxHealth]`
and rage in `[0, MaxMana]`. -/
def PlayerOK (p : Player) : Prop :=
  0 ≤ p.health ∧ p.health ≤ p.maxHealth ∧ 0 ≤ p.mana ∧ p.mana ≤ p.maxMana

/-- Every player in the store satisfies the bounds invariant. -/
def AllOK (players : List (String × Player)) : Prop :=
  ∀ e ∈ players, PlayerOK e.2

theorem lookupA_mem {α : Type} (l : List (String × α)) (k : String) (v : α)
    (h : lookupA l k = some v) : (k, v) ∈ l := by
  induction l with
  | nil => simp [lookupA] at h
  | cons e rest ih =>
    obtain ⟨ek, ev⟩ := e
    by_cases hk : ek = k
    · subst hk
      rw [show lookupA ((ek, ev) :: rest) ek = some ev from by simp [lookupA]] at h
      cases h
      exact List.mem_cons_self _ _
    · simp only [lookupA, if_neg hk] at h
      exact List.mem_cons_of_mem _ (ih h)

theorem mem_setA {α : Type} (l : List (String × α)) (k : String) (v : α)
    (e : String × α) (h : e ∈ setA l k v) : e ∈ l ∨ e = (k, v) := by
  induction l with
  | nil => simp [setA] at h
  | cons f rest ih =>
    obtain ⟨fk, fv⟩ := f
    by_cases hk : fk = k
    · subst hk
      simp only [setA, if_pos rfl] at h
      rcases List.mem_cons.mp h with h | h
      · exact Or.inr h
      · exact Or.inl (List.mem_cons_of_mem _ h)
    · simp only [setA, if_neg hk] at h
      rcases List.mem_cons.mp h with h | h
      · exact Or.inl (h ▸ List.mem_cons_self _ _)
      · rcases ih h with h | h
        · exact Or.inl (List.mem_cons_of_mem _ h)
        · exact Or.inr h

theorem AllOK_setA (l : List (String × Player)) (k : String) (v : Player)
    (hOK : AllOK l) (hv : PlayerOK v) : AllOK (setA l k v) := by
  intro e he
  rcases mem_setA l k v e he with h | h
  · exact hOK e h
  · rw [h]
    exact hv

theorem PlayerOK_decay (p : Player) (h : PlayerOK p) : PlayerOK (decayPlayer p) := by
  obtain ⟨h1, h2, h3, h4⟩ := h
  by_cases hc : p.Class = "warrior" ∧ 0 < p.mana
  · simp only [decayPlayer, if_pos hc]
    by_cases hm : p.mana - 2 < 0 <;>
      simp only [hm, ite_true, ite_false, reduceIte] <;>
      exact ⟨by dsimp only; omega, by dsimp only; omega,
        by dsimp only; omega, by dsimp only; omega⟩
  · rw [decayPlayer_eq_self p hc]
    exact ⟨h1, h2, h3, h4⟩

/-- **C6.** After each of the four operations — basic attack, critical strike,
enemy AI attack, rage-decay tick — every player remaining in the store still
has health in `[0, MaxHealth]` and rage in `[0, MaxMana]` (assuming it held
before and enemy damage is non-negative); moreover an enemy attack whose
damage meets or exceeds the target's current health stores exactly health 0
(never negative), and a warrior basic attack whose rage gain would pass max
stores exactly max rage (never above). -/
theorem C6_player_bounds (s : GameState) (attackerID targetEnemyID tid2 : String)
    (en : Enemy) (now : Int)
    (hOK : AllOK s.players) (hdmg : 0 ≤ enemyDamage en) :
    AllOK (handleCombat s attackerID targetEnemyID).1.players ∧
    AllOK (handleCriticalStrike s attackerID targetEnemyID).1.players ∧
    AllOK (attemptEnemyAttack s.players en tid2 now).1 ∧
    AllOK (rageDecayTick s.players).1 ∧
    (∀ t, lookupA s.players tid2 = some t → t.dead = false →
      enemyWeaponDelay en < now - en.lastAttack → t.health ≤ enemyDamage en →
      (lookupA (attemptEnemyAttack s.players en tid2 now).1 tid2).map Player.health
        = some 0) ∧
    (∀ atk en2, lookupA s.players attackerID = some atk →
      lookupA s.enemies targetEnemyID = some en2 →
      atk.Class = "warrior" → atk.maxMana < atk.mana + 5 →
      (lookupA (handleCombat s attackerID targetEnemyID).1.players attackerID).map
        Player.mana = some atk.maxMana) := by
  refine ⟨?_, ?_, ?_, ?_, ?_, ?_⟩
  · cases hE : lookupA s.enemies targetEnemyID with
    | none => simp only [handleCombat, hE]; exact hOK
    | some en2 =>
      cases hA : lookupA s.players attackerID with
      | none => simp only [handleCombat, hE, hA]; exact hOK
      | some atk =>
        have hPOK : PlayerOK atk := hOK (attackerID, atk) (lookupA_mem _ _ _ hA)
        obtain ⟨p1, p2, p3, p4⟩ := hPOK
        by_cases hcond : atk.Class = "warrior" ∧ atk.mana < atk.maxMana
        · simp only [handleCombat, hE, hA, if_pos hcond]
          have hok2 : PlayerOK { atk with mana := min atk.maxMana (atk.mana + 5) } :=
            ⟨by dsimp only; omega, by dsimp only; omega, by dsimp only; omega,
              by dsimp only; omega⟩
          split
          · exact AllOK_setA s.players attackerID _ hOK hok2
          · exact AllOK_setA s.players attackerID _ hOK hok2
        · simp only [handleCombat, hE, hA, if_neg hcond]
          split
          · exact hOK
          · exact hOK
  · cases hA : lookupA s.players attackerID with
    | none => simp only [handleCriticalStrike, hA]; exact hOK
    | some atk =>
      have hPOK : PlayerOK atk := hOK (attackerID, atk) (lookupA_mem _ _ _ hA)
      obtain ⟨p1, p2, p3, p4⟩ := hPOK
      by_cases hw : atk.Class ≠ "warrior"
      · simp only [handleCriticalStrike, hA, if_pos hw]; exact hOK
      · by_cases hr : atk.mana < 30
        · simp only [handleCriticalStrike, hA, if_neg hw, if_pos hr]; exact hOK
        · cases hE : lookupA s.enemies targetEnemyID with
          | none =>
            simp only [handleCriticalStrike, hA, if_neg hw, if_neg hr, hE]
            exact hOK
          | some en2 =>
            simp only [handleCriticalStrike, hA, if_neg hw, if_neg hr, hE]
            have hok2 : PlayerOK { atk with mana := atk.mana - 30 } :=
              ⟨by dsimp only; omega, by dsimp only; omega, by dsimp only; omega,
                by dsimp only; omega⟩
            split
            · exact AllOK_setA s.players attackerID _ hOK hok2
            · exact AllOK_setA s.players attackerID _ hOK hok2
  · cases hT : lookupA s.players tid2 with
    | none => simp only [attemptEnemyAttack, hT]; exact hOK
    | some t =>
      have hPOKt : PlayerOK t := hOK (tid2, t) (lookupA_mem _ _ _ hT)
      obtain ⟨q1, q2, q3, q4⟩ := hPOKt
      by_cases hdead : t.dead = true
      · simp only [attemptEnemyAttack, hT, if_pos hdead]; exact hOK
      · by_cases hdel : enemyWeaponDelay en < now - en.lastAttack
        · by_cases hw : t.Class = "warrior" ∧ t.mana < t.maxMana
          · simp only [attemptEnemyAttack, hT, if_neg hdead, if_pos hdel, if_pos hw]
            split
            · refine AllOK_setA s.players tid2 _ hOK ⟨?_, ?_, ?_, ?_⟩ <;>
                dsimp only <;> omega
            · next hlive =>
              refine AllOK_setA s.players tid2 _ hOK ⟨?_, ?_, ?_, ?_⟩ <;>
                dsimp only <;> omega
          · simp only [attemptEnemyAttack, hT, if_neg hdead, if_pos hdel, if_neg hw]
            split
            · refine AllOK_setA s.players tid2 _ hOK ⟨?_, ?_, ?_, ?_⟩ <;>
                dsimp only <;> omega
            · next hlive =>
              refine AllOK_setA s.players tid2 _ hOK ⟨?_, ?_, ?_, ?_⟩ <;>
                dsimp only <;> omega
        · simp only [attemptEnemyAttack, hT, if_neg hdead, if_neg hdel]; exact hOK
  · rw [rageDecayTick_players]
    intro e he
    rcases List.mem_map.mp he with ⟨f, hf, rfl⟩
    exact PlayerOK_decay f.2 (hOK f hf)
  · intro t ht hdeadf hdel hle
    have hdead2 : ¬(t.dead = true) := by simp [hdeadf]
    by_cases hw : t.Class = "warrior" ∧ t.mana < t.maxMana
    · simp only [attemptEnemyAttack, ht, if_neg hdead2, if_pos hdel, if_pos hw]
      rw [if_pos (show t.health - enemyDamage en ≤ 0 by omega)]
      rw [lookupA_setA_self s.players tid2 _ t ht]
      rfl
    · simp only [attemptEnemyAttack, ht, if_neg hdead2, if_pos hdel, if_neg hw]
      rw [if_pos (show t.health - enemyDamage en ≤ 0 by omega)]
      rw [lookupA_setA_self s.players tid2 _ t ht]
      rfl
  · intro atk en2 hA hE hw hover
    have hPOK : PlayerOK atk := hOK (attackerID, atk) (lookupA_mem _ _ _ hA)
    obtain ⟨p1, p2, p3, p4⟩ := hPOK
    by_cases hlt : atk.mana < atk.maxMana
    · simp only [handleCombat, hE, hA, if_pos (And.intro hw hlt)]
      have hset := lookupA_setA_self s.players attackerID
        { atk with mana := min atk.maxMana (atk.mana + 5) } atk hA
      split <;> (rw [hset]; simp only [Option.map_some']; congr 1; dsimp only; omega)
    · have hcond : ¬(atk.Class = "warrior" ∧ atk.mana < atk.maxMana) :=
        fun hc => hlt hc.2
      simp only [handleCombat, hE, hA, if_neg hcond]
      split <;> (rw [hA]; simp only [Option.map_some']; congr 1; omega)

/-- Witness for `C6_player_bounds`: the scenario-1 state (one zero-rage
warrior, one health-10 unarmed enemy) satisfies the bounds invariant, so every
listed operation preserves it there. -/
theorem C6_player_bounds_witness :
    AllOK (handleCombat c2wState "p1" "e1").1.players ∧
    AllOK (handleCriticalStrike c2wState "p1" "e1").1.players ∧
    AllOK (attemptEnemyAttack c2wState.players baseEnemy "p1" 3000000000).1 ∧
    AllOK (rageDecayTick c2wState.players).1 ∧
    (∀ t, lookupA c2wState.players "p1" = some t → t.dead = false →
      enemyWeaponDelay baseEnemy < 3000000000 - baseEnemy.lastAttack →
      t.health ≤ enemyDamage baseEnemy →
      (lookupA (attemptEnemyAttack c2wState.players baseEnemy "p1" 3000000000).1
        "p1").map Player.health = some 0) ∧
    (∀ atk en2, lookupA c2wState.players "p1" = some atk →
      lookupA c2wState.enemies "e1" = some en2 →
      atk.Class = "warrior" → atk.maxMana < atk.mana + 5 →
      (lookupA (handleCombat c2wState "p1" "e1").1.players "p1").map
        Player.mana = some atk.maxMana) :=
  C6_player_bounds c2wState "p1" "e1" "p1" baseEnemy 3000000000
    (by intro e he
        simp only [c2wState, c2wPlayer, basePlayer, List.mem_singleton] at he
        subst he
        exact ⟨by norm_num, by norm_num, by norm_num, by norm_num⟩)
    (by norm_num [enemyDamage, baseEnemy])
